import Mathlib

/-
  A verification development for the `kvs` in-memory ordered key-value store
  (`src/db.py`).  The store keeps records `(key, value, deadline)` in a list
  sorted by key, looked up by binary search; an optional transaction buffer
  holds write intents; committed mutations append textual commands to a log.

  The embedding below is a direct shallow translation of `db.py`:
  * `self.data`               ↦ `KVState.data : List Rec`
  * `self.transaction_buffer` ↦ `KVState.txn : Option (List Intent)`
  * the log file              ↦ `KVState.log : List String`
  * `time.time() * 1000`      ↦ an explicit `now : Int` parameter (all clock
    reads inside one run return the same value)
  Millisecond quantities are modelled as `Int` (the protocol sends integer
  literals, on which Python float arithmetic is exact).
-/

namespace KVS

/-- A stored record `(key, value, ttl)`; `ttl` is the absolute deadline in
milliseconds, `none` when the record never expires. -/
abbrev Rec := String × String × Option Int

/-- A buffered transaction intent, mirroring the `(op, args)` tuples the
source appends to `self.transaction_buffer`.  The source stores the EXPIRE
argument as its original string; it is numeric by construction (validated by
`float()` before buffering) and is modelled by its integer value. -/
inductive Intent where
  | set (key value : String) (ttl : Option Int)
  | del (key : String)
  | expire (key : String) (ms : Int)
  deriving DecidableEq, Repr

/-- The whole engine state: sorted record list, optional transaction buffer,
and the append-only log (one command string per line). -/
structure KVState where
  data : List Rec
  txn : Option (List Intent)
  log : List String
  deriving DecidableEq, Repr

/-- Python code-point comparison of character lists (lexicographic). -/
def strLtL : List Char → List Char → Bool
  | [], [] => false
  | [], _ :: _ => true
  | _ :: _, [] => false
  | a :: as, b :: bs =>
    if a.toNat < b.toNat then true
    else if b.toNat < a.toNat then false
    else strLtL as bs

/-- Python's `<` on strings: lexicographic comparison by code point. -/
def strLt (a b : String) : Bool := strLtL a.toList b.toList

/-- The key column of the record list (`[item[0] for item in self.data]`). -/
def dataKeys (data : List Rec) : List String := data.map (fun r => r.1)

/-- The binary-search loop of `_find_key_index`, with a fuel argument for
structural recursion; the interval `[lo, hi]` shrinks every iteration, so
fuel `keys.length + 1` always suffices for the initial interval. -/
def bsearchLoop (keys : List String) (key : String) : Nat → Int → Int → Int
  | 0, _, _ => -1
  | fuel + 1, lo, hi =>
    if lo ≤ hi then
      if keys.getD ((lo + hi) / 2).toNat "" = key then (lo + hi) / 2
      else if strLt (keys.getD ((lo + hi) / 2).toNat "") key then
        bsearchLoop keys key fuel ((lo + hi) / 2 + 1) hi
      else bsearchLoop keys key fuel lo ((lo + hi) / 2 - 1)
    else -1

/-- `_find_key_index`: binary search for a key, `-1` when not found. -/
def findKeyIndex (data : List Rec) (key : String) : Int :=
  bsearchLoop (dataKeys data) key ((dataKeys data).length + 1) 0
    (((dataKeys data).length : Int) - 1)

/-- Models Python's `bisect.bisect_left` on a sorted key list: the leftmost
position at which `key` can be inserted keeping the list sorted. -/
def bisectLeft (keys : List String) (key : String) : Nat :=
  (keys.takeWhile (fun k => strLt k key)).length

/-- `_is_expired`: an index out of range counts as expired; a record whose
deadline has strictly passed is popped from the list and reported expired. -/
def isExpired (now : Int) (data : List Rec) (index : Int) : Bool × List Rec :=
  if index < 0 ∨ (data.length : Int) ≤ index then (true, data)
  else
    match data.get? index.toNat with
    | some (_, _, some d) =>
        if now > d then (true, data.eraseIdx index.toNat) else (false, data)
    | some (_, _, none) => (false, data)
    | none => (true, data)

/-- `_get_key_index`: locate a key, optionally applying the expiration
check (which may pop the record). -/
def getKeyIndex (now : Int) (data : List Rec) (key : String)
    (checkExpired : Bool) : Int × List Rec :=
  let index := findKeyIndex data key
  if index = -1 then (-1, data)
  else if checkExpired then
    let p := isExpired now data index
    if p.1 then (-1, p.2) else (index, p.2)
  else (index, data)

/-- `_set_key`: update in place if the key exists (a `none` ttl argument
preserves the current deadline), otherwise insert at the sorted position. -/
def setKey (data : List Rec) (key value : String) (ttl : Option Int) :
    List Rec :=
  let index := findKeyIndex data key
  if index ≠ -1 then
    match data.get? index.toNat with
    | some (_, _, currentTtl) =>
        let newTtl := match ttl with | some t => some t | none => currentTtl
        data.set index.toNat (key, value, newTtl)
    | none => data
  else
    data.insertIdx (bisectLeft (dataKeys data) key) (key, value, ttl)

/-- `_delete_key`: remove if present, reporting presence. -/
def deleteKey (data : List Rec) (key : String) : Bool × List Rec :=
  let index := findKeyIndex data key
  if index ≠ -1 then (true, data.eraseIdx index.toNat) else (false, data)

/-- The ASCII whitespace Python `str.split()` splits on. -/
def isPySpace (c : Char) : Bool :=
  c = ' ' ∨ c = '\t' ∨ c = '\n' ∨ c = '\r' ∨ c = '\x0b' ∨ c = '\x0c'

/-- Python `str.split()`: split on runs of whitespace, dropping empty
tokens (which also covers the preceding `line.strip()`). -/
def splitWsAux : List Char → List Char → List String
  | [], acc => if acc.isEmpty then [] else [String.mk acc.reverse]
  | c :: cs, acc =>
    if isPySpace c then
      if acc.isEmpty then splitWsAux cs []
      else String.mk acc.reverse :: splitWsAux cs []
    else splitWsAux cs (c :: acc)

def splitWs (s : String) : List String := splitWsAux s.toList []

/-- Python `" ".join(parts)`. -/
def joinSpace : List String → String
  | [] => ""
  | [x] => x
  | x :: xs => x ++ " " ++ joinSpace xs

/-- The exact value class of a string Python `float()` accepts: a finite
value that is exactly an integer, a finite value that is not, or a
non-finite value (`inf`/`nan`). -/
inductive PyFloatVal where
  | int (n : Int)
  | frac
  | nonfinite
  deriving DecidableEq, Repr

/-- An optional leading sign, as Python float literals allow. -/
def splitSign : List Char → Int × List Char
  | '+' :: cs => (1, cs)
  | '-' :: cs => (-1, cs)
  | cs => (1, cs)

/-- Split at the first `'.'`, if any. -/
def splitDot : List Char → List Char × Option (List Char)
  | [] => ([], none)
  | c :: cs =>
      if c = '.' then ([], some cs)
      else
        let p := splitDot cs
        (c :: p.1, p.2)

/-- Split at the first `'e'`/`'E'`, if any. -/
def splitExp : List Char → List Char × Option (List Char)
  | [] => ([], none)
  | c :: cs =>
      if c = 'e' ∨ c = 'E' then ([], some cs)
      else
        let p := splitExp cs
        (c :: p.1, p.2)

def lowerStr (cs : List Char) : List Char := cs.map Char.toLower

/-- A non-empty run of decimal digits with single underscores strictly
between digits, as Python float literals allow ("10", "1_0"; not "_1",
"1_", "1__0"); yields the value and the number of digits. -/
def digitRunAux (acc cnt : Nat) : List Char → Option (Nat × Nat)
  | [] => if cnt = 0 then none else some (acc, cnt)
  | ['_'] => none
  | '_' :: c :: cs =>
      if cnt ≠ 0 ∧ c.isDigit then
        digitRunAux (acc * 10 + (c.toNat - 48)) (cnt + 1) cs
      else none
  | c :: cs =>
      if c.isDigit then digitRunAux (acc * 10 + (c.toNat - 48)) (cnt + 1) cs
      else none

def digitRun? (cs : List Char) : Option (Nat × Nat) := digitRunAux 0 0 cs

/-- The mantissa of a float literal, `digits [. digits]` with either side of
the dot optional but not both; yields the integer formed by all its digits
together with the number of fraction digits. -/
def mantissaVal? (cs : List Char) : Option (Nat × Nat) :=
  match splitDot cs with
  | (ip, none) => (digitRun? ip).map (fun v => (v.1, 0))
  | ([], some fp) => digitRun? fp
  | (ip, some []) => (digitRun? ip).map (fun v => (v.1, 0))
  | (ip, some fp) =>
      match digitRun? ip, digitRun? fp with
      | some iv, some fv => some (iv.1 * 10 ^ fv.2 + fv.1, fv.2)
      | _, _ => none

/-- The exponent of a float literal: absent, or an optionally signed digit
run. -/
def expVal? : Option (List Char) → Option Int
  | none => some 0
  | some ecs =>
      match splitSign ecs with
      | (sg, ds) => (digitRun? ds).map (fun v => sg * (v.1 : Int))

/-- Whether (and to what) Python `float()` parses a string: an optional
sign followed by `inf`/`infinity`/`nan` (case-insensitive) or by a decimal
mantissa with an optional exponent; `none` models `ValueError`.  This
covers the whitespace-free ASCII tokens the dispatcher and replay hand
over (both split their input on whitespace, so arguments never contain
whitespace), which is every string these operations are applied to. -/
def pyFloat? (str : String) : Option PyFloatVal :=
  match splitSign str.toList with
  | (sgn, body) =>
      if lowerStr body = "inf".toList ∨ lowerStr body = "infinity".toList ∨
          lowerStr body = "nan".toList then
        some PyFloatVal.nonfinite
      else
        match splitExp body with
        | (mant, expPart) =>
            match mantissaVal? mant, expVal? expPart with
            | some m, some e =>
                if 0 ≤ e - (m.2 : Int) then
                  some (PyFloatVal.int (sgn * (m.1 : Int) * 10 ^ (e - (m.2 : Int)).toNat))
                else if m.1 % 10 ^ ((m.2 : Int) - e).toNat = 0 then
                  some (PyFloatVal.int (sgn * ((m.1 : Int) / 10 ^ ((m.2 : Int) - e).toNat)))
                else some PyFloatVal.frac
            | _, _ => none

/-- The value of `float(str)` when it is an exactly integral number (the
only millisecond arguments the protocol meaningfully carries; such values
are exact in double precision up to 2^53, and literals of magnitude beyond
double range overflow to `inf` in Python).  Strings `float()` accepts
whose value is fractional, non-finite, or beyond 2^53 lie outside this
embedding's integer-millisecond domain: the operations below fall into
their error branch on the first two, and no theorem quantifies over that
region. -/
def floatOfString? (str : String) : Option Int :=
  match pyFloat? str with
  | some (PyFloatVal.int n) => some n
  | _ => none

/-- One line of `_replay_log`.  A `ValueError` escaping `float(ms)` is
modelled as `Except.error`; every other malformed line is skipped. -/
def replayLine (now : Int) (data : List Rec) (line : String) :
    Except String (List Rec) :=
  let parts := splitWs line
  if parts.length < 2 then .ok data
  else
    let cmd := parts.getD 0 ""
    if cmd = "SET" ∧ 3 ≤ parts.length then
      .ok (setKey data (parts.getD 1 "") (joinSpace (parts.drop 2)) none)
    else if cmd = "DEL" ∧ 2 ≤ parts.length then
      .ok (deleteKey data (parts.getD 1 "")).2
    else if cmd = "EXPIRE" ∧ 3 ≤ parts.length then
      let key := parts.getD 1 ""
      let msStr := parts.getD 2 ""
      let index := findKeyIndex data key
      if index = -1 then .ok data
      else
        match floatOfString? msStr with
        | none => .error ("could not convert string to float: " ++ msStr)
        | some ms =>
          match data.get? index.toNat with
          | some (k, v, _) => .ok (data.set index.toNat (k, v, some (now + ms)))
          | none => .ok data
    else .ok data

/-- `_replay_log` over the lines of the log file (the `FileNotFoundError`
branch corresponds to an empty line list). -/
def replayLog (now : Int) (lines : List String) : Except String (List Rec) :=
  lines.foldlM (fun data line => replayLine now data line) []

/-- One intent of `_apply_transaction`, acting on `(data, log)`.  The
EXPIRE log line renders the buffered value; the source logs the original
token, which coincides with this rendering for the canonical integer
tokens the protocol carries (not, e.g., for a zero-padded "0012"). -/
def applyIntent (now : Int) (p : List Rec × List String) (intent : Intent) :
    List Rec × List String :=
  match intent with
  | .set key value ttl =>
      (setKey p.1 key value ttl, p.2 ++ ["SET " ++ key ++ " " ++ value])
  | .del key =>
      let q := deleteKey p.1 key
      (q.2, if q.1 then p.2 ++ ["DEL " ++ key] else p.2)
  | .expire key ms =>
      let index := findKeyIndex p.1 key
      if index = -1 then p
      else
        match p.1.get? index.toNat with
        | some (k, v, _) =>
            (p.1.set index.toNat (k, v, some (now + ms)),
             p.2 ++ ["EXPIRE " ++ key ++ " " ++ toString ms])
        | none => p

/-- `_apply_transaction`: drain the buffer into the keyspace and the log. -/
def applyTransaction (now : Int) (s : KVState) : KVState :=
  match s.txn with
  | some buf =>
      let p := buf.foldl (applyIntent now) (s.data, s.log)
      { s with data := p.1, log := p.2 }
  | none => s

/-- The deadline the key currently has in the committed keyspace (read
without an expiration check), as buffered by `set`/`mset`. -/
def currentTtl (data : List Rec) (key : String) : Option Int :=
  let index := findKeyIndex data key
  if index = -1 then none
  else
    match data.get? index.toNat with
    | some (_, _, t) => t
    | none => none

/-- `KVStore.set`. -/
def set (now : Int) (s : KVState) (key value : String) : String × KVState :=
  match s.txn with
  | some buf =>
      ("OK", { s with txn := some (buf ++ [Intent.set key value (currentTtl s.data key)]) })
  | none =>
      ("OK", { s with data := setKey s.data key value none,
                      log := s.log ++ ["SET " ++ key ++ " " ++ value] })

/-- The read-your-writes scan of `get`/`exists`: latest buffered SET or DEL
touching the key (EXPIRE intents fall through without breaking the loop). -/
def rywLookup (buf : List Intent) (key : String) : Option Intent :=
  buf.reverse.find? (fun i =>
    match i with
    | .set k _ _ => k == key
    | .del k => k == key
    | .expire _ _ => false)

/-- `KVStore.get`. -/
def get (now : Int) (s : KVState) (key : String) : String × KVState :=
  let fromBuf : Option String :=
    match s.txn with
    | some buf =>
        match rywLookup buf key with
        | some (.set _ v _) => some (if v ≠ "" then v else "")
        | some (.del _) => some "nil"
        | _ => none
    | none => none
  match fromBuf with
  | some r => (r, s)
  | none =>
      let p := getKeyIndex now s.data key true
      if p.1 = -1 then ("nil", { s with data := p.2 })
      else
        match p.2.get? p.1.toNat with
        | some (_, v, _) => ((if v ≠ "" then v else ""), { s with data := p.2 })
        | none => ("nil", { s with data := p.2 })

/-- `KVStore.delete`: inside a transaction buffer a DEL and reply `1`
optimistically; outside, look the key up WITHOUT the expiration check. -/
def delete (now : Int) (s : KVState) (key : String) : String × KVState :=
  match s.txn with
  | some buf => ("1", { s with txn := some (buf ++ [Intent.del key]) })
  | none =>
      let p := getKeyIndex now s.data key false
      if p.1 ≠ -1 then
        ("1", { s with data := p.2.eraseIdx p.1.toNat,
                       log := s.log ++ ["DEL " ++ key] })
      else ("0", { s with data := p.2 })

/-- `KVStore.exists`. -/
def existsKey (now : Int) (s : KVState) (key : String) : String × KVState :=
  let fromBuf : Option String :=
    match s.txn with
    | some buf =>
        match rywLookup buf key with
        | some (.set _ _ _) => some "1"
        | some (.del _) => some "0"
        | _ => none
    | none => none
  match fromBuf with
  | some r => (r, s)
  | none =>
      let p := getKeyIndex now s.data key true
      ((if p.1 ≠ -1 then "1" else "0"), { s with data := p.2 })

/-- Consecutive `(key, value)` pairs of an even-length MSET argument list. -/
def pairsOf : List String → List (String × String)
  | k :: v :: rest => (k, v) :: pairsOf rest
  | _ => []

/-- `KVStore.mset`. -/
def mset (now : Int) (s : KVState) (args : List String) : String × KVState :=
  if args.length % 2 ≠ 0 then ("ERR wrong number of arguments for MSET", s)
  else
    match s.txn with
    | some buf =>
        ("OK", { s with txn := some (buf ++ (pairsOf args).map
                  (fun q => Intent.set q.1 q.2 (currentTtl s.data q.1))) })
    | none =>
        ("OK", (pairsOf args).foldl
          (fun st q => { st with data := setKey st.data q.1 q.2 none,
                                 log := st.log ++ ["SET " ++ q.1 ++ " " ++ q.2] }) s)

/-- `KVStore.mget`: element-wise `get`, threading the state. -/
def mget (now : Int) (s : KVState) (keys : List String) :
    List String × KVState :=
  keys.foldl (fun acc k =>
    let p := get now acc.2 k
    (acc.1 ++ [p.1], p.2)) ([], s)

/-- `KVStore.begin`. -/
def begin (s : KVState) : String × KVState :=
  match s.txn with
  | some _ => ("ERR transaction already in progress", s)
  | none => ("OK", { s with txn := some [] })

/-- `KVStore.commit`. -/
def commit (now : Int) (s : KVState) : String × KVState :=
  match s.txn with
  | none => ("ERR no transaction in progress", s)
  | some _ =>
      let s' := applyTransaction now s
      ("OK", { s' with txn := none })

/-- `KVStore.abort`. -/
def abort (s : KVState) : String × KVState :=
  match s.txn with
  | none => ("ERR no transaction in progress", s)
  | some _ => ("OK", { s with txn := none })

/-- `KVStore.expire`. -/
def expire (now : Int) (s : KVState) (key msStr : String) : String × KVState :=
  match floatOfString? msStr with
  | none => ("ERR invalid TTL value", s)
  | some ms =>
    if ms ≤ 0 then
      match s.txn with
      | some buf => ("1", { s with txn := some (buf ++ [Intent.del key]) })
      | none =>
          let index := findKeyIndex s.data key
          if index ≠ -1 then
            ("1", { s with data := s.data.eraseIdx index.toNat,
                           log := s.log ++ ["DEL " ++ key] })
          else ("1", s)
    else
      match s.txn with
      | some buf =>
          let existsInBuf := buf.any (fun i =>
            match i with
            | .set k _ _ => k == key
            | _ => false)
          if existsInBuf then
            ("1", { s with txn := some (buf ++ [Intent.expire key ms]) })
          else
            let index := findKeyIndex s.data key
            if index = -1 then ("0", s)
            else
              let p := isExpired now s.data index
              if p.1 then ("0", { s with data := p.2 })
              else ("1", { s with data := p.2,
                                  txn := some (buf ++ [Intent.expire key ms]) })
      | none =>
          let q := getKeyIndex now s.data key false
          if q.1 = -1 then ("0", { s with data := q.2 })
          else
            match q.2.get? q.1.toNat with
            | some (kn, v, _) =>
                ("1", { s with data := q.2.set q.1.toNat (kn, v, some (now + ms)),
                               log := s.log ++ ["EXPIRE " ++ key ++ " " ++ msStr] })
            | none => ("0", { s with data := q.2 })

/-- The buffer scan of `ttl`: latest intent of any kind touching the key. -/
def ttlBuf (buf : List Intent) (key : String) : Option Intent :=
  buf.reverse.find? (fun i =>
    match i with
    | .set k _ _ => k == key
    | .del k => k == key
    | .expire k _ => k == key)

/-- `KVStore.ttl`.  In the EXPIRE-intent branch the source computes
`remaining = ms - (now - (now - ms))` and replies `str(int(max(0, remaining)))`. -/
def ttl (now : Int) (s : KVState) (key : String) : String × KVState :=
  let fromBuf : Option String :=
    match s.txn with
    | some buf =>
        match ttlBuf buf key with
        | some (.set _ _ _) => some "-1"
        | some (.del _) => some "-2"
        | some (.expire _ ms) => some (toString (max 0 (ms - (now - (now - ms)))))
        | none => none
    | none => none
  match fromBuf with
  | some r => (r, s)
  | none =>
      let q := getKeyIndex now s.data key false
      if q.1 = -1 then ("-2", { s with data := q.2 })
      else
        let p := isExpired now q.2 q.1
        if p.1 then ("-2", { s with data := p.2 })
        else
          match p.2.get? q.1.toNat with
          | some (_, _, none) => ("-1", { s with data := p.2 })
          | some (_, _, some d) =>
              if d - now ≤ 0 then
                ("-2", { s with data := p.2.eraseIdx q.1.toNat })
              else (toString (d - now), { s with data := p.2 })
          | none => ("-2", { s with data := p.2 })

/-- The `has_ttl` scan of `persist` inside a transaction: the latest
buffered SET or EXPIRE on the key wins (DEL intents are ignored); a SET
whose carried deadline is `none` yields `false`. -/
def persistHasTtl (buf : List Intent) (key : String) : Bool :=
  match buf.reverse.find? (fun i =>
    match i with
    | .set k _ _ => k == key
    | .expire k _ => k == key
    | .del _ => false) with
  | some (.set _ _ (some _)) => true
  | some (.expire _ _) => true
  | _ => false

/-- The `current_value` scan of `persist` inside a transaction: the latest
buffered SET on the key, if any. -/
def persistBufValue (buf : List Intent) (key : String) : Option String :=
  match buf.reverse.find? (fun i =>
    match i with
    | .set k _ _ => k == key
    | _ => false) with
  | some (.set _ v _) => some v
  | _ => none

/-- `KVStore.persist`. -/
def persist (now : Int) (s : KVState) (key : String) : String × KVState :=
  match s.txn with
  | some buf =>
      let gate : Bool × List Rec :=
        if persistHasTtl buf key then (true, s.data)
        else
          let index := findKeyIndex s.data key
          if index = -1 then (false, s.data)
          else
            let p := isExpired now s.data index
            if p.1 then (false, p.2)
            else
              match p.2.get? index.toNat with
              | some (_, _, none) => (false, p.2)
              | _ => (true, p.2)
      if gate.1 then
        match persistBufValue buf key with
        | some v =>
            ("1", { s with data := gate.2,
                           txn := some (buf ++ [Intent.set key v none]) })
        | none =>
            let index := findKeyIndex gate.2 key
            if index ≠ -1 then
              let p := isExpired now gate.2 index
              if p.1 then ("0", { s with data := p.2 })
              else
                match p.2.get? index.toNat with
                | some (_, v, _) =>
                    ("1", { s with data := p.2,
                                   txn := some (buf ++ [Intent.set key v none]) })
                | none => ("0", { s with data := p.2 })
            else ("0", { s with data := gate.2 })
      else ("0", { s with data := gate.2 })
  | none =>
      let q := getKeyIndex now s.data key true
      if q.1 = -1 then ("0", { s with data := q.2 })
      else
        match q.2.get? q.1.toNat with
        | some (_, _, none) => ("0", { s with data := q.2 })
        | some (kn, v, some _) =>
            ("1", { s with data := q.2.set q.1.toNat (kn, v, none),
                           log := s.log ++ ["SET " ++ kn ++ " " ++ v] })
        | none => ("0", { s with data := q.2 })

/-- The per-key transaction filter of `range`: `key_in_txn` starts `false`,
a DEL on the key breaks with `false`, a SET breaks with `true`, and an
EXPIRE on the key matches `args[0] == key` but falls through without a
break (so the scan continues past it). -/
def rangeKeep (intents : List Intent) (key : String) : Bool :=
  match intents.reverse.find? (fun i =>
    match i with
    | .set k _ _ => k == key
    | .del k => k == key
    | .expire _ _ => false) with
  | some (.set _ _ _) => true
  | _ => false

/-- The key lines produced by `KVStore.range` (without the "END" sentinel):
committed records inside the inclusive bounds (empty bound = open), not
expired, and surviving the transaction filter.  The loop only skips
(`continue`) expired records; it never removes them. -/
def rangeKeys (now : Int) (s : KVState) (start stop : String) : List String :=
  (s.data.filter (fun r =>
    (if start ≠ "" then !(strLt r.1 start) else true) &&
    (if stop ≠ "" then !(strLt stop r.1) else true) &&
    (match r.2.2 with | some d => !(decide (now > d)) | none => true) &&
    (match s.txn with
     | some intents => rangeKeep intents r.1
     | none => true))).map (fun r => r.1)

/-- `KVStore.range`: key lines followed by the "END" terminator; `self.data`
is only read, never written. -/
def range (now : Int) (s : KVState) (start stop : String) :
    List String × KVState :=
  (rangeKeys now s start stop ++ ["END"], s)

/-- The write commands a transaction can buffer (MSET takes its raw
argument list). -/
inductive WriteOp where
  | wset (key value : String)
  | wdel (key : String)
  | wexpire (key ms : String)
  | wpersist (key : String)
  | wmset (args : List String)
  deriving DecidableEq, Repr

def applyWrite (now : Int) (s : KVState) : WriteOp → KVState
  | .wset k v => (set now s k v).2
  | .wdel k => (delete now s k).2
  | .wexpire k ms => (expire now s k ms).2
  | .wpersist k => (persist now s k).2
  | .wmset args => (mset now s args).2

def applyWrites (now : Int) (s : KVState) (ops : List WriteOp) : KVState :=
  ops.foldl (applyWrite now) s

/-- The keyspace invariant: keys strictly ascending (hence unique). -/
def SortedKeys (data : List Rec) : Prop :=
  List.Pairwise (fun a b => strLt a b = true) (dataKeys data)

instance (data : List Rec) : Decidable (SortedKeys data) := by
  unfold SortedKeys; infer_instance

/-- A record whose deadline has not strictly passed (or has none). -/
def recLive (now : Int) (r : Rec) : Bool :=
  match r.2.2 with
  | some d => decide (now ≤ d)
  | none => true

/-- No physically present record is already expired. -/
def noExpired (now : Int) (data : List Rec) : Prop :=
  ∀ r ∈ data, recLive now r = true

instance (now : Int) (data : List Rec) : Decidable (noExpired now data) :=
  List.decidableBAll (fun r => recLive now r = true) data

/-- The empty store (fresh start, no log). -/
def emptyState : KVState := { data := [], txn := none, log := [] }

/-- Scenario S6 of the spec, just before the RANGE command: from the empty
store run `SET a 1`, `SET c 3`, `BEGIN`, `SET b 2`, `DEL a`. -/
def s6State : KVState :=
  (delete 0 ((set 0 ((begin
    ((set 0 ((set 0 emptyState "a" "1").2) "c" "3").2)).2) "b" "2").2) "a").2

/-- From the empty store: `SET k v`, `BEGIN`, `EXPIRE k 500`, all at clock
1000; the buffer holds the single intent `EXPIRE(k, 500)`. -/
def c2State : KVState :=
  (expire 1000 ((begin ((set 1000 emptyState "k" "v").2)).2) "k" "500").2

/-- From the empty store: `SET k v`, `BEGIN`, `DEL k`; the buffer holds the
single intent `DEL(k)` while `k` is committed and unexpired. -/
def c3State : KVState :=
  (delete 0 ((begin ((set 0 emptyState "k" "v").2)).2) "k").2

/-- A store holding one record whose deadline (5) has already passed at the
clock value 100 used with it below. -/
def c5State : KVState := { data := [("k", "v", some 5)], txn := none, log := ["SET k v"] }

/-- `SET k v`, `EXPIRE k 100000`, `BEGIN`, `DEL k`, `PERSIST k`, `COMMIT`,
all at clock 0. -/
def c6TxnRun : KVState :=
  (commit 0 ((persist 0 ((delete 0 ((begin
    ((expire 0 ((set 0 emptyState "k" "v").2) "k" "100000").2)).2) "k").2) "k").2)).2

/-- The same writes as `c6TxnRun` executed outside a transaction:
`SET k v`, `EXPIRE k 100000`, `DEL k`, `PERSIST k`, all at clock 0. -/
def c6DirectRun : KVState :=
  (persist 0 ((delete 0 ((expire 0 ((set 0 emptyState "k" "v").2) "k" "100000").2)
    "k").2) "k").2

/-- A store holding one record whose deadline (5) has already passed at the
clock value 100 used with it below; no transaction open. -/
def c8Start : KVState := { data := [("k", "v", some 5)], txn := none, log := [] }

theorem strLtL_irrefl : ∀ cs : List Char, strLtL cs cs = false
  | [] => rfl
  | c :: cs => by
      rw [strLtL, if_neg (lt_irrefl c.toNat), if_neg (lt_irrefl c.toNat)]
      exact strLtL_irrefl cs

theorem strLt_irrefl (a : String) : strLt a a = false := strLtL_irrefl a.toList

theorem strLtL_asymm : ∀ as bs : List Char,
    strLtL as bs = true → strLtL bs as = true → False
  | [], [], h1, _ => by simp [strLtL] at h1
  | [], _ :: _, _, h2 => by simp [strLtL] at h2
  | _ :: _, [], h1, _ => by simp [strLtL] at h1
  | a :: as, b :: bs, h1, h2 => by
      by_cases hab : a.toNat < b.toNat
      · rw [strLtL, if_neg (by omega : ¬ b.toNat < a.toNat), if_pos hab] at h2
        exact Bool.false_ne_true h2
      · by_cases hba : b.toNat < a.toNat
        · rw [strLtL, if_neg hab, if_pos hba] at h1
          exact Bool.false_ne_true h1
        · rw [strLtL, if_neg hab, if_neg hba] at h1
          rw [strLtL, if_neg hba, if_neg hab] at h2
          exact strLtL_asymm as bs h1 h2

theorem strLt_asymm {a b : String} (h1 : strLt a b = true)
    (h2 : strLt b a = true) : False :=
  strLtL_asymm a.toList b.toList h1 h2

/-- Soundness of the binary-search loop: a result other than `-1` is an
in-range position holding the key. -/
theorem bsearchLoop_found {keys : List String} {key : String} :
    ∀ (fuel : Nat) (lo hi : Int), 0 ≤ lo → hi < (keys.length : Int) →
      bsearchLoop keys key fuel lo hi ≠ -1 →
      ∃ m : Nat, bsearchLoop keys key fuel lo hi = (m : Int) ∧
        m < keys.length ∧ keys.getD m "" = key := by
  intro fuel
  induction fuel with
  | zero => intro lo hi _ _ h; exact absurd rfl h
  | succ n ih =>
      intro lo hi hlo hhi h
      rw [bsearchLoop] at h ⊢
      by_cases hlh : lo ≤ hi
      case neg => rw [if_neg hlh] at h; exact absurd rfl h
      rw [if_pos hlh] at h ⊢
      have hmid1 : lo ≤ (lo + hi) / 2 := by omega
      have hmid2 : (lo + hi) / 2 ≤ hi := by omega
      by_cases hk : keys.getD ((lo + hi) / 2).toNat "" = key
      · rw [if_pos hk] at h ⊢
        exact ⟨((lo + hi) / 2).toNat, by omega, by omega, hk⟩
      · rw [if_neg hk] at h ⊢
        by_cases hlt : strLt (keys.getD ((lo + hi) / 2).toNat "") key = true
        · rw [if_pos hlt] at h ⊢; exact ih _ _ (by omega) hhi h
        · rw [if_neg hlt] at h ⊢; exact ih _ _ hlo (by omega) h

/-- Completeness of the binary-search loop on a strictly sorted key list:
if the key sits at position `i` inside the search interval, the loop
returns `i`. -/
theorem bsearchLoop_eq {keys : List String} {key : String}
    (hs : List.Pairwise (fun a b => strLt a b = true) keys) :
    ∀ (fuel : Nat) (lo hi : Int) (i : Nat), (hi + 1 - lo).toNat < fuel →
      0 ≤ lo → lo ≤ (i : Int) → (i : Int) ≤ hi → hi < (keys.length : Int) →
      keys.getD i "" = key →
      bsearchLoop keys key fuel lo hi = (i : Int) := by
  intro fuel
  induction fuel with
  | zero => intro lo hi i hfuel _ hloi hihi _ _; omega
  | succ n ih =>
      intro lo hi i hfuel hlo hloi hihi hhi hkey
      have hlh : lo ≤ hi := le_trans hloi hihi
      rw [bsearchLoop, if_pos hlh]
      have hmid1 : lo ≤ (lo + hi) / 2 := by omega
      have hmid2 : (lo + hi) / 2 ≤ hi := by omega
      have hmlen : ((lo + hi) / 2).toNat < keys.length := by omega
      have hilen : i < keys.length := by omega
      by_cases hk : keys.getD ((lo + hi) / 2).toNat "" = key
      · rw [if_pos hk]
        rcases Nat.lt_trichotomy ((lo + hi) / 2).toNat i with hlt | heq | hgt
        · exfalso
          have hp := (List.pairwise_iff_getElem.mp hs) _ i hmlen hilen hlt
          rw [List.getD_eq_getElem keys "" hmlen] at hk
          rw [List.getD_eq_getElem keys "" hilen] at hkey
          rw [hk, hkey, strLt_irrefl] at hp
          exact Bool.false_ne_true hp
        · omega
        · exfalso
          have hp := (List.pairwise_iff_getElem.mp hs) i _ hilen hmlen hgt
          rw [List.getD_eq_getElem keys "" hmlen] at hk
          rw [List.getD_eq_getElem keys "" hilen] at hkey
          rw [hk, hkey, strLt_irrefl] at hp
          exact Bool.false_ne_true hp
      · rw [if_neg hk]
        by_cases hlt : strLt (keys.getD ((lo + hi) / 2).toNat "") key = true
        · rw [if_pos hlt]
          have hmi : ((lo + hi) / 2).toNat < i := by
            rcases Nat.lt_trichotomy ((lo + hi) / 2).toNat i with h' | h' | h'
            · exact h'
            · exact absurd (by rw [h']; exact hkey) hk
            · exfalso
              have hp := (List.pairwise_iff_getElem.mp hs) i _ hilen hmlen h'
              rw [List.getD_eq_getElem keys "" hilen] at hkey
              rw [hkey] at hp
              rw [List.getD_eq_getElem keys "" hmlen] at hlt
              exact strLt_asymm hlt hp
          exact ih _ _ i (by omega) (by omega) (by omega) hihi hhi hkey
        · rw [if_neg hlt]
          have him : i < ((lo + hi) / 2).toNat := by
            rcases Nat.lt_trichotomy i ((lo + hi) / 2).toNat with h' | h' | h'
            · exact h'
            · exact absurd (by rw [← h']; exact hkey) hk
            · exfalso
              have hp := (List.pairwise_iff_getElem.mp hs) _ i hmlen hilen h'
              rw [List.getD_eq_getElem keys "" hilen] at hkey
              rw [hkey] at hp
              rw [List.getD_eq_getElem keys "" hmlen] at hlt
              exact hlt hp
          exact ih _ _ i (by omega) hlo hloi (by omega) (by omega) hkey

/-- `_find_key_index` finds the position of a present key (sorted data). -/
theorem findKeyIndex_at {data : List Rec} {key : String} (hs : SortedKeys data)
    {i : Nat} (hi : i < data.length) (hk : (data.get ⟨i, hi⟩).1 = key) :
    findKeyIndex data key = (i : Int) := by
  have hlen : (dataKeys data).length = data.length := by simp [dataKeys]
  have hi' : i < (dataKeys data).length := by omega
  have hk' : (dataKeys data).getD i "" = key := by
    rw [List.getD_eq_getElem _ "" hi']
    simpa [dataKeys] using hk
  unfold findKeyIndex
  exact bsearchLoop_eq hs _ 0 (((dataKeys data).length : Int) - 1) i
    (by omega) (by omega) (by omega) (by omega) (by omega) hk'

/-- `_find_key_index` returns `-1` for an absent key. -/
theorem findKeyIndex_not_mem {data : List Rec} {key : String}
    (h : key ∉ dataKeys data) : findKeyIndex data key = -1 := by
  by_contra hne
  unfold findKeyIndex at hne
  obtain ⟨m, _, hm, hk⟩ := bsearchLoop_found ((dataKeys data).length + 1) 0
    (((dataKeys data).length : Int) - 1) (by omega) (by omega) hne
  apply h
  rw [List.getD_eq_getElem _ "" hm] at hk
  rw [← hk]
  exact List.getElem_mem hm

/-- `_is_expired` at a live in-range record: reports `false`, no pop. -/
theorem isExpired_live_at {now : Int} {data : List Rec} {i : Nat}
    (hi : i < data.length) {k v : String} {dl : Option Int}
    (hget : data.get? i = some (k, v, dl)) (hlive : recLive now (k, v, dl) = true) :
    isExpired now data (i : Int) = (false, data) := by
  unfold isExpired
  rw [if_neg (by omega : ¬ ((i : Int) < 0 ∨ (data.length : Int) ≤ (i : Int)))]
  have ht : ((i : Int)).toNat = i := by omega
  cases dl with
  | none => simp only [ht, hget]
  | some d =>
      simp only [recLive, decide_eq_true_eq] at hlive
      simp only [ht, hget]
      rw [if_neg (by omega : ¬ now > d)]

/-- `_is_expired` at an in-range record whose deadline strictly passed:
reports `true` and pops the record. -/
theorem isExpired_expired_at {now : Int} {data : List Rec} {i : Nat}
    (hi : i < data.length) {k v : String} {d : Int}
    (hget : data.get? i = some (k, v, some d)) (hexp : now > d) :
    isExpired now data (i : Int) = (true, data.eraseIdx i) := by
  unfold isExpired
  rw [if_neg (by omega : ¬ ((i : Int) < 0 ∨ (data.length : Int) ≤ (i : Int)))]
  have ht : ((i : Int)).toNat = i := by omega
  simp only [ht, hget]
  rw [if_pos hexp]

/-- Rebuilding a state with its transaction field rewritten by a known
`txn = none` hypothesis yields the state itself. -/
theorem state_eta {s : KVState} (h : s.txn = none) :
    KVState.mk s.data none s.log = s := by
  cases s with
  | mk d t l =>
      simp only at h
      rw [h]

/-- `dataKeys` at a position is the key of the record there. -/
theorem dataKeys_getD {data : List Rec} {j : Nat} (hj : j < data.length) :
    (dataKeys data).getD j "" = (data.get ⟨j, hj⟩).1 := by
  have hj' : j < (dataKeys data).length := by simpa [dataKeys] using hj
  rw [List.getD_eq_getElem _ _ hj']
  simp [dataKeys]

/-- On strictly sorted data, positions holding equal keys coincide. -/
theorem mem_key_unique {data : List Rec} (hs : SortedKeys data)
    {i j : Nat} (hilt : i < data.length) (hjlt : j < data.length)
    (hkey : (data.get ⟨j, hjlt⟩).1 = (data.get ⟨i, hilt⟩).1) : j = i := by
  have hi' : i < (dataKeys data).length := by simpa [dataKeys] using hilt
  have hj' : j < (dataKeys data).length := by simpa [dataKeys] using hjlt
  rcases Nat.lt_trichotomy j i with h' | h' | h'
  · exfalso
    have hp := (List.pairwise_iff_getElem.mp hs) j i hj' hi' h'
    rw [← List.getD_eq_getElem _ "" hj', ← List.getD_eq_getElem _ "" hi'] at hp
    rw [dataKeys_getD hjlt, dataKeys_getD hilt, hkey, strLt_irrefl] at hp
    exact Bool.false_ne_true hp
  · exact h'
  · exfalso
    have hp := (List.pairwise_iff_getElem.mp hs) i j hi' hj' h'
    rw [← List.getD_eq_getElem _ "" hj', ← List.getD_eq_getElem _ "" hi'] at hp
    rw [dataKeys_getD hjlt, dataKeys_getD hilt, hkey, strLt_irrefl] at hp
    exact Bool.false_ne_true hp

/-- The forward SET scan of `expire` inside a transaction finds exactly the
keys that some buffered SET intent mentions. -/
theorem anySet_iff (buf : List Intent) (key : String) :
    (buf.any fun i => match i with
      | .set k _ _ => k == key
      | _ => false) = true ↔ ∃ v t, Intent.set key v t ∈ buf := by
  rw [List.any_eq_true]
  constructor
  · rintro ⟨i, hi, hp⟩
    cases i with
    | set k v t =>
        have : k = key := by simpa using hp
        exact ⟨v, t, by rwa [this] at hi⟩
    | del k => simp at hp
    | expire k ms => simp at hp
  · rintro ⟨v, t, hmem⟩
    exact ⟨Intent.set key v t, hmem, by simp⟩

/-- The carried deadline a buffered SET reads for a present key. -/
theorem currentTtl_at {data : List Rec} {key : String} (hs : SortedKeys data)
    {i : Nat} (hilt : i < data.length) {v₀ : String} {dl : Option Int}
    (hget : data.get ⟨i, hilt⟩ = (key, v₀, dl)) :
    currentTtl data key = dl := by
  have hfind : findKeyIndex data key = (i : Int) :=
    findKeyIndex_at hs hilt (by rw [hget])
  have hget? : data.get? i = some (key, v₀, dl) := by
    rw [List.get?_eq_get hilt, hget]
  unfold currentTtl
  rw [hfind, if_neg (by omega : ¬ ((i : Int)) = -1)]
  have ht : ((i : Int)).toNat = i := by omega
  rw [ht, hget?]

/-- `_set_key` on a present key replaces the record in place; a `none` ttl
argument preserves the current deadline, a `some` overwrites it. -/
theorem setKey_update {data : List Rec} {key : String} (hs : SortedKeys data)
    {i : Nat} (hilt : i < data.length) {v₀ : String} {dl : Option Int}
    (hget : data.get ⟨i, hilt⟩ = (key, v₀, dl)) (value : String) (ttl : Option Int) :
    setKey data key value ttl =
      data.set i (key, value, match ttl with | some t => some t | none => dl) := by
  have hfind : findKeyIndex data key = (i : Int) :=
    findKeyIndex_at hs hilt (by rw [hget])
  have hget? : data.get? i = some (key, v₀, dl) := by
    rw [List.get?_eq_get hilt, hget]
  unfold setKey
  rw [hfind, if_pos (by omega : ((i : Int)) ≠ -1)]
  have ht : ((i : Int)).toNat = i := by omega
  rw [ht, hget?]

/-- Under `noExpired`, `_is_expired` never mutates the record list. -/
theorem isExpired_frame {now : Int} {data : List Rec}
    (h : noExpired now data) (idx : Int) : (isExpired now data idx).2 = data := by
  unfold isExpired
  by_cases hb : idx < 0 ∨ (data.length : Int) ≤ idx
  · rw [if_pos hb]
  · rw [if_neg hb]
    cases hget : data.get? idx.toNat with
    | none => rfl
    | some r =>
        obtain ⟨k, v, dl⟩ := r
        cases dl with
        | none => simp only [hget]
        | some d =>
            have hr := h _ (List.get?_mem hget)
            simp only [recLive, decide_eq_true_eq] at hr
            simp only [hget]
            rw [if_neg (by omega : ¬ now > d)]

/-- C1: against the claim (and spec scenario S6), a committed, unexpired key
in range that no buffered intent touches does NOT appear in RANGE output
while a transaction is open: in scenario S6 the source emits only `END`,
dropping `c`, because the per-key scan starts with `key_in_txn = False` and
a key the buffer never touches is filtered out. -/
theorem range_s6_drops_untouched_committed_key :
    range 0 s6State "a" "z" = (["END"], s6State) ∧
    "c" ∉ (range 0 s6State "a" "z").1 := by
  constructor
  · decide
  · decide

/-- C2 (amended): when a transaction is open and the latest buffered intent
on `key` is `EXPIRE(key, ms)`, TTL reports `"0"`, not `ms`: the source's
expression `ms - (now_ms - (now_ms - ms))` simplifies to `0` (the clock
reads coincide in the model), and `str(int(max(0, 0)))` is `"0"`. -/
theorem ttl_expire_intent_reports_zero (now : Int) (s : KVState) (key : String)
    (ms : Int) (buf : List Intent) (htxn : s.txn = some buf)
    (hbuf : ttlBuf buf key = some (Intent.expire key ms)) :
    ttl now s key = ("0", s) := by
  have h0 : max 0 (ms - (now - (now - ms))) = 0 := by omega
  simp only [ttl, htxn, hbuf, h0]
  rfl

theorem ttl_expire_intent_reports_zero_witness :
    ttl 1000 c2State "k" = ("0", c2State) :=
  ttl_expire_intent_reports_zero 1000 c2State "k" 500 [Intent.expire "k" 500]
    (by decide) (by decide)

/-- C2 (counterexample): after `SET k v`, `BEGIN`, `EXPIRE k 500` (all at
clock 1000), the latest buffered intent on `k` is `EXPIRE(k, 500)`, and
`TTL k` replies `"0"` — not the raw relative argument `"500"` that the
claim says is reported. -/
theorem ttl_expire_intent_not_ms :
    (ttl 1000 c2State "k").1 = "0" ∧ (ttl 1000 c2State "k").1 ≠ "500" := by
  constructor
  · decide
  · decide

/-- C4: replay is NOT total: a log whose `EXPIRE` line names an existing key
but carries a non-numeric third token raises `ValueError` out of
`_replay_log` (only `FileNotFoundError` is caught), modelled here as
`Except.error`; the second part shows the skipping behaviour the claim
describes does hold for short, unknown, and missing-key lines. -/
theorem replay_expire_nonnumeric_raises :
    replayLog 0 ["SET k v", "EXPIRE k abc"] =
      Except.error "could not convert string to float: abc" ∧
    replayLog 0 ["SET k v", "XX", "DEL k x", "EXPIRE missing abc"] =
      Except.ok [] := by
  constructor
  · rfl
  · rfl

/-- C6: committing `DEL k; PERSIST k` is not equivalent to executing them
outside a transaction: from the empty store after `SET k v` and
`EXPIRE k 100000` (clock 0), the transactional run resurrects `k` (with its
deadline dropped), while the direct run leaves the keyspace empty.  The
buffered PERSIST ignores the preceding DEL when it checks presence, and its
`SET(k, v, None)` intent re-inserts the key at commit. -/
theorem commit_del_persist_resurrects :
    c6TxnRun.data = [("k", "v", none)] ∧ c6DirectRun.data = [] ∧
    c6TxnRun.data ≠ c6DirectRun.data := by
  refine ⟨by decide, by decide, by decide⟩

/-- C3 (counterexample): with `k` committed and unexpired and the buffer
holding only `DEL k` (so the buffer's LATEST intent on `k` is a DEL),
`EXPIRE k 100` replies `"1"` and appends the EXPIRE intent — the claim
says it must reply `"0"` and not append.  The source scans forward for SET
intents only and never looks at DELs. -/
theorem expire_after_buffered_del_appends :
    expire 0 c3State "k" "100" =
      ("1", { c3State with txn := some [Intent.del "k", Intent.expire "k" 100] }) ∧
    (expire 0 c3State "k" "100").1 ≠ "0" := by
  constructor
  · decide
  · decide

/-- C3 (amended): for `EXPIRE k ms` with `ms > 0` inside a transaction,
presence is decided by a forward scan of the buffer for ANY SET intent on
`k` (DEL intents are ignored, so a later DEL does not win): if some SET on
`k` is buffered, reply `1` and append the EXPIRE intent; otherwise consult
the committed keyspace honoring expiration — an absent key replies `0`
without appending, a present live key replies `1` and appends. -/
theorem expire_txn_presence_amended (now : Int) (s : KVState) (key msStr : String)
    (ms : Int) (buf : List Intent) (htxn : s.txn = some buf)
    (hms : floatOfString? msStr = some ms) (hpos : 0 < ms) :
    ((∃ v t, Intent.set key v t ∈ buf) →
      expire now s key msStr =
        ("1", { s with txn := some (buf ++ [Intent.expire key ms]) })) ∧
    ((∀ v t, Intent.set key v t ∉ buf) → key ∉ dataKeys s.data →
      expire now s key msStr = ("0", s)) ∧
    (∀ (i : Nat) (hilt : i < s.data.length) (v : String) (dl : Option Int),
      (∀ v' t, Intent.set key v' t ∉ buf) → SortedKeys s.data →
      s.data.get ⟨i, hilt⟩ = (key, v, dl) → recLive now (key, v, dl) = true →
      expire now s key msStr =
        ("1", { s with txn := some (buf ++ [Intent.expire key ms]) })) := by
  have hle : ¬ ms ≤ 0 := by omega
  refine ⟨?_, ?_, ?_⟩
  · intro hset
    have hany := (anySet_iff buf key).mpr hset
    simp only [expire, hms, if_neg hle, htxn, hany, if_true]
  · intro hnone hnotmem
    have hany : (buf.any fun i => match i with
        | .set k _ _ => k == key
        | _ => false) = false := by
      by_contra h
      obtain ⟨v, t, hm⟩ := (anySet_iff buf key).mp (by simpa using h)
      exact hnone v t hm
    have hfind := findKeyIndex_not_mem hnotmem
    simp only [expire, hms, if_neg hle, htxn, hany, Bool.false_eq_true, if_false,
      hfind, if_pos]
  · intro i hilt v dl hnone hs hget hlive
    have hany : (buf.any fun i => match i with
        | .set k _ _ => k == key
        | _ => false) = false := by
      by_contra h
      obtain ⟨v', t, hm⟩ := (anySet_iff buf key).mp (by simpa using h)
      exact hnone v' t hm
    have hfind : findKeyIndex s.data key = (i : Int) :=
      findKeyIndex_at hs hilt (by rw [hget])
    have hget? : s.data.get? i = some (key, v, dl) := by
      rw [List.get?_eq_get hilt, hget]
    have hexp : isExpired now s.data ((i : Int)) = (false, s.data) :=
      isExpired_live_at hilt hget? hlive
    simp only [expire, hms, if_neg hle, htxn, hany, Bool.false_eq_true, if_false,
      hfind, if_neg (by omega : ¬ ((i : Int)) = -1), hexp]

theorem expire_txn_presence_amended_witness :
    expire 7 { data := [], txn := some [Intent.set "a" "x" none], log := [] } "a" "3" =
      ("1", { data := ([] : List Rec),
              txn := some ([Intent.set "a" "x" none] ++ [Intent.expire "a" 3]),
              log := ([] : List String) }) :=
  (expire_txn_presence_amended 7 _ "a" "3" 3 [Intent.set "a" "x" none]
    rfl rfl (by omega)).1 ⟨"x", none, by decide⟩

/-- C9 (counterexample): `EXPIRE k -5` on the empty store replies `"1"`
although nothing was armed or deleted and the key is absent — the claim's
reply table demands `"0"` for an absent key. -/
theorem expire_nonpositive_absent_replies_one :
    expire 0 emptyState "k" "-5" = ("1", emptyState) ∧
    (expire 0 emptyState "k" "-5").1 ≠ "0" := by
  constructor
  · decide
  · decide

/-- C9 (amended): an `ms` that Python `float()` rejects replies
`ERR invalid TTL value` with no state change and no log append, whether or
not a transaction is open (the `ValueError` fires before anything else);
`ms ≤ 0` replies `"1"` UNCONDITIONALLY — inside a transaction it buffers a
DEL intent, outside one it removes the key and logs a DEL when the key is
physically present and does nothing (still replying `"1"`, not `"0"`) when
it is absent; outside a transaction `ms > 0` replies `"0"` for an absent
key, and for a physically present key (expired or not) arms `now + ms` and
logs the EXPIRE with its original relative argument, replying `"1"`. -/
theorem expire_reply_amended (now : Int) (s : KVState) (key msStr : String)
    (hs : SortedKeys s.data) :
    (pyFloat? msStr = none →
      expire now s key msStr = ("ERR invalid TTL value", s)) ∧
    (∀ (ms : Int) (buf : List Intent), floatOfString? msStr = some ms → ms ≤ 0 →
      s.txn = some buf →
      expire now s key msStr = ("1", { s with txn := some (buf ++ [Intent.del key]) })) ∧
    (∀ ms : Int, floatOfString? msStr = some ms → ms ≤ 0 → s.txn = none →
      key ∉ dataKeys s.data → expire now s key msStr = ("1", s)) ∧
    (∀ (ms : Int) (i : Nat) (hilt : i < s.data.length),
      floatOfString? msStr = some ms → ms ≤ 0 → s.txn = none →
      (s.data.get ⟨i, hilt⟩).1 = key →
      expire now s key msStr =
        ("1", { s with data := s.data.eraseIdx i,
                       log := s.log ++ ["DEL " ++ key] })) ∧
    (∀ ms : Int, floatOfString? msStr = some ms → 0 < ms → s.txn = none →
      key ∉ dataKeys s.data → expire now s key msStr = ("0", s)) ∧
    (∀ (ms : Int) (i : Nat) (hilt : i < s.data.length) (v : String) (dl : Option Int),
      floatOfString? msStr = some ms → 0 < ms → s.txn = none →
      s.data.get ⟨i, hilt⟩ = (key, v, dl) →
      expire now s key msStr =
        ("1", { s with data := s.data.set i (key, v, some (now + ms)),
                       log := s.log ++ ["EXPIRE " ++ key ++ " " ++ msStr] })) := by
  refine ⟨?_, ?_, ?_, ?_, ?_, ?_⟩
  · intro hrej
    have hnum : floatOfString? msStr = none := by
      simp only [floatOfString?, hrej]
    simp only [expire, hnum]
  · intro ms buf hnum hle htxn
    simp only [expire, hnum, if_pos hle, htxn]
  · intro ms hnum hle htxn hnotmem
    have hfind := findKeyIndex_not_mem hnotmem
    simp only [expire, hnum, if_pos hle, htxn, hfind]
    rfl
  · intro ms i hilt hnum hle htxn hkey
    have hfind : findKeyIndex s.data key = (i : Int) := findKeyIndex_at hs hilt hkey
    have ht : ((i : Int)).toNat = i := by omega
    simp only [expire, hnum, if_pos hle, htxn, hfind,
      if_pos (by omega : ((i : Int)) ≠ -1), ht]
  · intro ms hnum hpos htxn hnotmem
    have hfind := findKeyIndex_not_mem hnotmem
    simp only [expire, hnum, if_neg (by omega : ¬ ms ≤ 0), htxn, getKeyIndex, hfind,
      if_pos]
    rw [state_eta htxn]
  · intro ms i hilt v dl hnum hpos htxn hget
    have hfind : findKeyIndex s.data key = (i : Int) :=
      findKeyIndex_at hs hilt (by rw [hget])
    have hget? : s.data.get? i = some (key, v, dl) := by
      rw [List.get?_eq_get hilt, hget]
    have ht : ((i : Int)).toNat = i := by omega
    simp only [expire, hnum, if_neg (by omega : ¬ ms ≤ 0), htxn, getKeyIndex, hfind,
      Bool.false_eq_true, if_false, if_neg (by omega : ¬ ((i : Int)) = -1), ht, hget?]

theorem expire_reply_amended_witness :
    expire 0 { data := [("a", "1", some 9)], txn := none, log := [] } "b" "xyz" =
      ("ERR invalid TTL value",
        { data := [("a", "1", some 9)], txn := none, log := ([] : List String) }) ∧
    expire 0 { data := [("a", "1", some 9)], txn := some [], log := [] } "a" "-5" =
      ("1", { data := [("a", "1", some 9)], txn := some ([] ++ [Intent.del "a"]),
              log := ([] : List String) }) :=
  ⟨(expire_reply_amended 0
      { data := [("a", "1", some 9)], txn := none, log := [] } "b" "xyz"
      (by decide)).1 rfl,
   (expire_reply_amended 0
      { data := [("a", "1", some 9)], txn := some [], log := [] } "a" "-5"
      (by decide)).2.1 (-5) [] (by decide) (by omega) rfl⟩

/-- C10: outside a transaction, `DEL k` on a record whose deadline has
already strictly passed but which is still physically present replies `"1"`
removes the record, and appends `DEL k` to the log: `delete` looks the key
up with `check_expired=False` and never applies the expiration check. -/
theorem delete_ignores_expiration (now : Int) (s : KVState) (key v : String)
    (d : Int) (htxn : s.txn = none) (hs : SortedKeys s.data)
    (i : Nat) (hilt : i < s.data.length)
    (hget : s.data.get ⟨i, hilt⟩ = (key, v, some d)) (hexp : now > d) :
    delete now s key =
      ("1", { s with data := s.data.eraseIdx i,
                     log := s.log ++ ["DEL " ++ key] }) := by
  have hfind : findKeyIndex s.data key = (i : Int) :=
    findKeyIndex_at hs hilt (by rw [hget])
  have ht : ((i : Int)).toNat = i := by omega
  simp only [delete, htxn, getKeyIndex, hfind,
    if_neg (by omega : ¬ ((i : Int)) = -1), Bool.false_eq_true, if_false,
    if_pos (by omega : ((i : Int)) ≠ -1), ht]

theorem delete_ignores_expiration_witness :
    delete 100 { data := [("a", "1", some 5)], txn := none, log := [] } "a" =
      ("1", { data := ([] : List Rec), txn := none, log := ["DEL " ++ "a"] }) :=
  delete_ignores_expiration 100 _ "a" "1" 5 rfl (by decide) 0 (by decide)
    (by decide) (by decide)

/-- C7: a plain SET of an existing key with an armed deadline replaces the
value but does NOT clear the prior deadline — both outside a transaction
(`_set_key` with a `None` ttl preserves the current deadline) and via
`BEGIN; SET; COMMIT` (the buffered SET carries the deadline read at buffer
time and the commit upsert reinstates it).  In both cases `SET key value`
is appended to the log. -/
theorem set_preserves_deadline (now : Int) (s : KVState) (key v₀ value : String)
    (d : Int) (htxn : s.txn = none) (hs : SortedKeys s.data)
    (i : Nat) (hilt : i < s.data.length)
    (hget : s.data.get ⟨i, hilt⟩ = (key, v₀, some d)) :
    set now s key value =
      ("OK", { s with data := s.data.set i (key, value, some d),
                      log := s.log ++ ["SET " ++ key ++ " " ++ value] }) ∧
    (commit now (set now (begin s).2 key value).2).2 =
      { s with data := s.data.set i (key, value, some d),
               log := s.log ++ ["SET " ++ key ++ " " ++ value],
               txn := none } := by
  have hsk := setKey_update hs hilt hget value none
  have hsk2 := setKey_update hs hilt hget value (some d)
  have hct := currentTtl_at hs hilt hget
  constructor
  · simp only [set, htxn, hsk]
  · simp only [begin, htxn, set, hct, List.nil_append, commit, applyTransaction,
      List.foldl_cons, List.foldl_nil, applyIntent, hsk2]

theorem set_preserves_deadline_witness :
    set 0 { data := [("a", "1", some 50)], txn := none, log := [] } "a" "2" =
      ("OK", { data := [("a", "1", some 50)].set 0 ("a", "2", some 50),
               txn := none,
               log := ([] : List String) ++ ["SET " ++ "a" ++ " " ++ "2"] }) :=
  (set_preserves_deadline 0 _ "a" "1" "2" 50 rfl (by decide) 0 (by decide)
    (by decide)).1

/-- C5 (counterexample): with the expired record `(k, v, 5)` still stored at
clock 100, RANGE treats it as absent (no key line is emitted) but does NOT
remove it: the record is still stored after the call returns, contradicting
the claim that every one of the five operations physically removes expired
records it discovers. -/
theorem range_expired_record_not_removed :
    rangeKeys 100 c5State "" "" = [] ∧
    (range 100 c5State "" "").2.data = [("k", "v", some 5)] := by
  constructor
  · decide
  · decide

/-- C5 (amended): outside a transaction, on a record whose deadline has
strictly passed, `exists`, `get`, `ttl`, and `persist` each treat it as
absent AND pop it from the keyspace; `range` treats it as absent (its key
never appears in the output, whatever the bounds) but leaves the keyspace
untouched. -/
theorem expired_lazy_eviction_amended (now : Int) (s : KVState) (key v : String)
    (d : Int) (htxn : s.txn = none) (hs : SortedKeys s.data)
    (i : Nat) (hilt : i < s.data.length)
    (hget : s.data.get ⟨i, hilt⟩ = (key, v, some d)) (hexp : now > d) :
    existsKey now s key = ("0", { s with data := s.data.eraseIdx i }) ∧
    get now s key = ("nil", { s with data := s.data.eraseIdx i }) ∧
    ttl now s key = ("-2", { s with data := s.data.eraseIdx i }) ∧
    persist now s key = ("0", { s with data := s.data.eraseIdx i }) ∧
    (∀ lo hi : String, key ∉ rangeKeys now s lo hi) ∧
    (∀ lo hi : String, (range now s lo hi).2 = s) := by
  have hfind : findKeyIndex s.data key = (i : Int) :=
    findKeyIndex_at hs hilt (by rw [hget])
  have hget? : s.data.get? i = some (key, v, some d) := by
    rw [List.get?_eq_get hilt, hget]
  have hie : isExpired now s.data ((i : Int)) = (true, s.data.eraseIdx i) :=
    isExpired_expired_at hilt hget? hexp
  refine ⟨?_, ?_, ?_, ?_, ?_, fun lo hi => rfl⟩
  · simp only [existsKey, htxn, getKeyIndex, hfind,
      if_neg (by omega : ¬ ((i : Int)) = -1), if_true, hie]
    rfl
  · simp only [get, htxn, getKeyIndex, hfind,
      if_neg (by omega : ¬ ((i : Int)) = -1), if_true, hie]
  · simp only [ttl, htxn, getKeyIndex, hfind,
      if_neg (by omega : ¬ ((i : Int)) = -1), Bool.false_eq_true, if_false, hie,
      if_true]
  · simp only [persist, htxn, getKeyIndex, hfind,
      if_neg (by omega : ¬ ((i : Int)) = -1), if_true, hie]
  · intro lo hi hmem
    unfold rangeKeys at hmem
    obtain ⟨r, hrf, hrkey⟩ := List.mem_map.mp hmem
    obtain ⟨hrmem, hpred⟩ := List.mem_filter.mp hrf
    obtain ⟨⟨j, hj⟩, hjr⟩ := List.mem_iff_get.mp hrmem
    have hkeyeq : (s.data.get ⟨j, hj⟩).1 = (s.data.get ⟨i, hilt⟩).1 := by
      rw [hjr, hrkey, hget]
    have hji := mem_key_unique hs hilt hj hkeyeq
    subst hji
    rw [hget] at hjr
    rw [← hjr] at hpred
    simp only [Bool.and_eq_true] at hpred
    obtain ⟨⟨_, hb3⟩, _⟩ := hpred
    simp only [Bool.not_eq_true', decide_eq_false_iff_not] at hb3
    omega

theorem expired_lazy_eviction_amended_witness :
    existsKey 10 { data := [("a", "1", some 5)], txn := none, log := [] } "a" =
      ("0", { data := ([("a", "1", some 5)] : List Rec).eraseIdx 0,
              txn := none, log := [] }) ∧
    "a" ∉ rangeKeys 10 { data := [("a", "1", some 5)], txn := none, log := [] } "" "" ∧
    (range 10 { data := [("a", "1", some 5)], txn := none, log := [] } "" "").2 =
      { data := [("a", "1", some 5)], txn := none, log := [] } := by
  obtain ⟨h1, _, _, _, h5, h6⟩ :=
    expired_lazy_eviction_amended 10
      { data := [("a", "1", some 5)], txn := none, log := [] } "a" "1" 5 rfl
      (by decide) 0 (by decide) (by decide) (by decide)
  exact ⟨h1, h5 "" "", h6 "" ""⟩

/-- One write issued while a transaction is open never touches the log,
keeps the transaction open, and — when no already-expired record is
physically present — never touches the committed keyspace (the only
mutation it can make is lazy eviction inside `_is_expired` during the
presence checks of EXPIRE and PERSIST). -/
theorem applyWrite_txn_frame (now : Int) (s : KVState) (op : WriteOp)
    (buf : List Intent) (htxn : s.txn = some buf) :
    (applyWrite now s op).log = s.log ∧
    (∃ buf', (applyWrite now s op).txn = some buf') ∧
    (noExpired now s.data → (applyWrite now s op).data = s.data) := by
  cases op with
  | wset k v =>
      refine ⟨?_, ⟨buf ++ [Intent.set k v (currentTtl s.data k)], ?_⟩, fun _ => ?_⟩ <;>
        simp only [applyWrite, set, htxn]
  | wdel k =>
      refine ⟨?_, ⟨buf ++ [Intent.del k], ?_⟩, fun _ => ?_⟩ <;>
        simp only [applyWrite, delete, htxn]
  | wmset args =>
      refine ⟨?_, ?_, fun _ => ?_⟩ <;>
        · simp only [applyWrite, mset, htxn]
          repeat' split
          all_goals first
            | rfl
            | exact ⟨_, rfl⟩
            | exact ⟨buf, htxn⟩
  | wexpire k ms =>
      refine ⟨?_, ?_, ?_⟩
      · simp only [applyWrite, expire, htxn]
        repeat' split
        all_goals rfl
      · simp only [applyWrite, expire, htxn]
        repeat' split
        all_goals first
          | exact ⟨_, rfl⟩
          | exact ⟨buf, htxn⟩
      · intro h
        simp only [applyWrite, expire, htxn]
        repeat' split
        all_goals simp [isExpired_frame h]
  | wpersist k =>
      refine ⟨?_, ?_, ?_⟩
      · simp only [applyWrite, persist, htxn]
        repeat' split
        all_goals rfl
      · simp only [applyWrite, persist, htxn]
        repeat' split
        all_goals first
          | exact ⟨_, rfl⟩
          | exact ⟨buf, htxn⟩
      · intro h
        simp only [applyWrite, persist, htxn]
        repeat' split
        all_goals simp [isExpired_frame h]

/-- The fold of `applyWrite_txn_frame` over a whole write sequence. -/
theorem applyWrites_txn_frame (now : Int) (ops : List WriteOp) :
    ∀ (s : KVState) (buf : List Intent), s.txn = some buf →
      (applyWrites now s ops).log = s.log ∧
      (∃ buf', (applyWrites now s ops).txn = some buf') ∧
      (noExpired now s.data → (applyWrites now s ops).data = s.data) := by
  induction ops with
  | nil => intro s buf h; exact ⟨rfl, ⟨buf, h⟩, fun _ => rfl⟩
  | cons op ops ih =>
      intro s buf h
      obtain ⟨hlog, ⟨buf', htxn'⟩, hdata⟩ := applyWrite_txn_frame now s op buf h
      obtain ⟨ihlog, ihtxn, ihdata⟩ := ih (applyWrite now s op) buf' htxn'
      simp only [applyWrites, List.foldl_cons] at *
      refine ⟨ihlog.trans hlog, ihtxn, fun h0 => ?_⟩
      have hd := hdata h0
      rw [ihdata (by rwa [hd]), hd]

/-- C8 (counterexample): with the already-expired record `(k, v, 5)` still
physically present at clock 100, the sequence `BEGIN; EXPIRE k 50; ABORT`
leaves the keyspace CHANGED: the buffered EXPIRE's presence check lazily
evicts the expired record, so after ABORT the keyspace is empty rather than
byte-for-byte what it was before BEGIN. -/
theorem abort_after_buffered_expire_evicts :
    (abort (applyWrites 100 (begin c8Start).2 [WriteOp.wexpire "k" "50"])).2.data = [] ∧
    c8Start.data ≠ [] := by
  constructor
  · decide
  · decide

/-- C8 (amended): after BEGIN and any sequence of buffered writes (SET,
DEL, EXPIRE, PERSIST, MSET), ABORT leaves the log byte-for-byte unchanged
and closes the transaction; the keyspace too is byte-for-byte unchanged
PROVIDED no already-expired record was physically present at BEGIN
(otherwise the buffered EXPIRE/PERSIST presence checks may lazily evict
such records — the only possible difference). -/
theorem abort_frame_amended (now : Int) (s0 : KVState) (ops : List WriteOp)
    (htxn : s0.txn = none) :
    (abort (applyWrites now (begin s0).2 ops)).2.log = s0.log ∧
    (abort (applyWrites now (begin s0).2 ops)).2.txn = none ∧
    (noExpired now s0.data →
      (abort (applyWrites now (begin s0).2 ops)).2.data = s0.data) := by
  have hb : (begin s0).2 = { s0 with txn := some [] } := by
    simp only [begin, htxn]
  obtain ⟨hlog, ⟨buf', ht⟩, hdata⟩ :=
    applyWrites_txn_frame now ops (begin s0).2 [] (by rw [hb])
  have habort : abort (applyWrites now (begin s0).2 ops) =
      ("OK", { applyWrites now (begin s0).2 ops with txn := none }) := by
    unfold abort
    rw [ht]
  rw [habort]
  refine ⟨?_, rfl, fun h0 => ?_⟩
  · show (applyWrites now (begin s0).2 ops).log = s0.log
    rw [hlog, hb]
  · show (applyWrites now (begin s0).2 ops).data = s0.data
    rw [hdata (by rw [hb]; exact h0), hb]

theorem abort_frame_amended_witness :
    (abort (applyWrites 7 (begin
        { data := [("a", "1", some 900)], txn := none, log := ["SET a 1"] }).2
      [WriteOp.wset "b" "2", WriteOp.wdel "a", WriteOp.wexpire "a" "50",
       WriteOp.wpersist "a", WriteOp.wmset ["x", "1", "y", "2"]])).2.log =
        ["SET a 1"] ∧
    (abort (applyWrites 7 (begin
        { data := [("a", "1", some 900)], txn := none, log := ["SET a 1"] }).2
      [WriteOp.wset "b" "2", WriteOp.wdel "a", WriteOp.wexpire "a" "50",
       WriteOp.wpersist "a", WriteOp.wmset ["x", "1", "y", "2"]])).2.data =
        [("a", "1", some 900)] := by
  obtain ⟨h1, _, h3⟩ :=
    abort_frame_amended 7
      { data := [("a", "1", some 900)], txn := none, log := ["SET a 1"] }
      [WriteOp.wset "b" "2", WriteOp.wdel "a", WriteOp.wexpire "a" "50",
       WriteOp.wpersist "a", WriteOp.wmset ["x", "1", "y", "2"]] rfl
  exact ⟨h1, h3 (by decide)⟩

end KVS
